import Mathlib

/-!
# Scan matching driver: `scan_match.cpp`

A shallow embedding of `ScanProcessor::readScan` and
`ScanProcessor::handleLaserScan` together with the constants they use.

## Numbers

A C++ `float` is modelled by `FloatVal`: NaN, the two infinities, or a finite
value given by the rational number it denotes.  Comparisons, `isnan` and
`abs` are exact on floats and are modelled exactly.  Arithmetic on finite
values is carried out exactly (rounding and overflow are not modelled, and
there is a single zero, taken as positive when it is a divisor); arithmetic
involving NaN, an infinity or a zero divisor follows IEEE-754.

## Helpers

`computeJump`, `transformPoints`, the three correspondence searches,
`updateTransform` and `Transform::getMatrix` are declared in headers that are
not part of the translated file.  They are taken as parameters (`Helpers`);
each one reads its arguments and writes only its output argument.
Publishing, visualisation and timing have no effect on the state modelled
here and are left out.
-/

namespace ScanMatch

/-! ## Floating point values -/

/-- Value of a C++ `float`. -/
inductive FloatVal where
  | nan
  | ninf
  | pinf
  | fin (q : ℚ)
deriving DecidableEq

namespace FloatVal

/-- The test `isnan(x)`. -/
def isnan : FloatVal → Bool
  | nan => true
  | _ => false

/-- Conversion of a non-negative `int` to `float`. -/
def ofNat (n : Nat) : FloatVal := fin (n : ℚ)

/-- Unary minus. -/
def fneg : FloatVal → FloatVal
  | nan => nan
  | ninf => pinf
  | pinf => ninf
  | fin q => fin (-q)

/-- The sum `a + b`. -/
def fadd : FloatVal → FloatVal → FloatVal
  | nan, _ => nan
  | _, nan => nan
  | pinf, ninf => nan
  | ninf, pinf => nan
  | pinf, _ => pinf
  | ninf, _ => ninf
  | fin _, pinf => pinf
  | fin _, ninf => ninf
  | fin a, fin b => fin (a + b)

/-- The difference `a - b`. -/
def fsub (a b : FloatVal) : FloatVal := fadd a (fneg b)

/-- Infinity with the sign of `+∞ * q` for a non-zero finite `q`. -/
def infSign (q : ℚ) : FloatVal := if q < 0 then ninf else pinf

/-- The product `a * b`. -/
def fmul : FloatVal → FloatVal → FloatVal
  | nan, _ => nan
  | _, nan => nan
  | pinf, pinf => pinf
  | pinf, ninf => ninf
  | ninf, pinf => ninf
  | ninf, ninf => pinf
  | pinf, fin q => if q = 0 then nan else infSign q
  | ninf, fin q => if q = 0 then nan else infSign (-q)
  | fin q, pinf => if q = 0 then nan else infSign q
  | fin q, ninf => if q = 0 then nan else infSign (-q)
  | fin a, fin b => fin (a * b)

/-- The quotient `a / b`. -/
def fdiv : FloatVal → FloatVal → FloatVal
  | nan, _ => nan
  | _, nan => nan
  | pinf, pinf => nan
  | pinf, ninf => nan
  | ninf, pinf => nan
  | ninf, ninf => nan
  | pinf, fin q => infSign (if q = 0 then 1 else q)
  | ninf, fin q => infSign (if q = 0 then -1 else -q)
  | fin _, pinf => fin 0
  | fin _, ninf => fin 0
  | fin a, fin b => if b = 0 then (if a = 0 then nan else infSign a) else fin (a / b)

/-- The absolute value `abs(x)`. -/
def fabs : FloatVal → FloatVal
  | nan => nan
  | ninf => pinf
  | pinf => pinf
  | fin q => fin |q|

/-- The comparison `a < b` (false when an operand is NaN). -/
def flt : FloatVal → FloatVal → Bool
  | nan, _ => false
  | _, nan => false
  | ninf, ninf => false
  | ninf, _ => true
  | pinf, _ => false
  | fin _, ninf => false
  | fin _, pinf => true
  | fin a, fin b => decide (a < b)

/-- The comparison `a <= b` (false when an operand is NaN). -/
def fle : FloatVal → FloatVal → Bool
  | nan, _ => false
  | _, nan => false
  | ninf, _ => true
  | pinf, pinf => true
  | pinf, _ => false
  | fin _, ninf => false
  | fin _, pinf => true
  | fin a, fin b => decide (a ≤ b)

/-- The comparison `a > b`. -/
def fgt (a b : FloatVal) : Bool := flt b a

/-- The comparison `a >= b`. -/
def fge (a b : FloatVal) : Bool := fle b a

end FloatVal

open FloatVal

/-! ## Constants of `scan_match.cpp` -/

/-- Source line 23: `const float RANGE_LIMIT = 10.0;` -/
def RANGE_LIMIT : FloatVal := fin 10

/-- Source line 25: `const float MAX_ITER = 30.0;` -/
def MAX_ITER : FloatVal := fin 30

/-- Source line 26: `const float MIN_INFO = 0.1;` -/
def MIN_INFO : FloatVal := fin (1 / 10)

/-- Source line 27: `const float A = (1-MIN_INFO)/MAX_ITER/MAX_ITER;` -/
def A : FloatVal := fdiv (fdiv (fsub (ofNat 1) MIN_INFO) MAX_ITER) MAX_ITER

/-- Source line 28: `const float error_per = 5.0;` -/
def error_per : FloatVal := fin 5

/-- The expression `A*count*count+MIN_INFO` handed to every correspondence
search. -/
def threshold (count : Nat) : FloatVal :=
  fadd (fmul (fmul A (ofNat count)) (ofNat count)) MIN_INFO

/-! ## Data -/

/-- Modelled from the spec: the `Point` type of `correspond.h`, which is not
part of the translated file.  A point is built by `Point(range, angle)` from
a polar pair; the pair is what is recorded here. -/
structure Point where
  r : FloatVal
  theta : FloatVal
deriving DecidableEq

/-- Modelled from the spec: the `Transform` type of `transform.h`, which is
not part of the translated file: a rotation angle and an x/y displacement. -/
structure Transform where
  x_disp : FloatVal
  y_disp : FloatVal
  theta_rot : FloatVal
deriving DecidableEq

/-- Modelled from the spec: the value built by `Transform()`, the identity
transform: no displacement, no rotation. -/
def Transform.identity : Transform := ⟨fin 0, fin 0, fin 0⟩

/-- The fields of `sensor_msgs::LaserScan` read by the driver. -/
structure LaserScan where
  range_min : FloatVal
  range_max : FloatVal
  angle_min : FloatVal
  angle_increment : FloatVal
  ranges : List FloatVal

/-- The type `Eigen::Matrix3f` of the global pose, with exact entries. -/
abbrev Matrix3f := Matrix (Fin 3) (Fin 3) ℚ

/-- The members of `ScanProcessor` that `readScan` and `handleLaserScan` read
or write, and the two global comparison counters handed to the searches. -/
structure ScanProcessor (Corr : Type) where
  new_points : List Point
  transformed_points : List Point
  prev_points : List Point
  corresponds_smart : List Corr
  corresponds_naive : List Corr
  jump_table : List (List Int)
  prev_trans : Transform
  curr_trans : Transform
  global_tf : Matrix3f
  jump_index : Int
  smart_index : Int

/-- The functions called by the driver and defined elsewhere.  An argument
passed by reference and written by the callee appears as an argument (its old
value) and in the result (its new value). -/
structure Helpers (Corr : Type) where
  computeJump : List (List Int) → List Point → List (List Int)
  transformPoints : List Point → Transform → List Point → List Point
  getNaiveCorrespondence : List Point → List Point → List Point → List (List Int) →
    List Corr → FloatVal → List Corr
  getSmartJumpCorrespondence : List Point → List Point → List Point → List (List Int) →
    List Corr → FloatVal → FloatVal → Int → List Corr × Int
  getSmartCorrespondence : List Point → List Point → List Point → List (List Int) →
    List Corr → FloatVal → FloatVal → Int → List Corr × Int
  updateTransform : List Corr → Transform → Transform
  getMatrix : Transform → Matrix3f

/-- The state of a freshly constructed `ScanProcessor`: empty vectors,
default transforms, `global_tf = Identity(3,3)`, zero-initialised globals. -/
def ScanProcessor.init (Corr : Type) : ScanProcessor Corr where
  new_points := []
  transformed_points := []
  prev_points := []
  corresponds_smart := []
  corresponds_naive := []
  jump_table := []
  prev_trans := Transform.identity
  curr_trans := Transform.identity
  global_tf := 1
  jump_index := 0
  smart_index := 0

/-! ## `readScan` -/

/-- The angle `angle_min + angle_increment * i` given to the point of sweep
index `i`. -/
def scanAngle (msg : LaserScan) (i : Nat) : FloatVal :=
  fadd msg.angle_min (fmul msg.angle_increment (ofNat i))

/-- One pass through the body of the `for` loop of `readScan`, for the
reading `range = ranges.at(i)`. -/
def readScanBody (msg : LaserScan) (i : Nat) (range : FloatVal)
    (new_points : List Point) : List Point :=
  if !isnan range && fgt range RANGE_LIMIT then
    new_points ++ [Point.mk RANGE_LIMIT (scanAngle msg i)]
  else if !isnan range && fge range msg.range_min && fle range msg.range_max then
    new_points ++ [Point.mk range (scanAngle msg i)]
  else
    new_points

/-- The `for` loop of `readScan`, from index `i` on, over the readings not
yet visited. -/
def readScanLoop (msg : LaserScan) : Nat → List FloatVal → List Point → List Point
  | _, [], new_points => new_points
  | i, range :: rest, new_points =>
    readScanLoop msg (i + 1) rest (readScanBody msg i range new_points)

/-- The method `ScanProcessor::readScan`: clear `new_points`, then run the loop over
`msg->ranges`. -/
def readScan {Corr : Type} (s : ScanProcessor Corr) (msg : LaserScan) : ScanProcessor Corr :=
  let cleared : ScanProcessor Corr := { s with new_points := [] }
  { cleared with new_points := readScanLoop msg 0 msg.ranges cleared.new_points }

/-! ## The ICP loop of `handleLaserScan` -/

/-- Line 157: `(curr_trans.x_disp-prev_trans.x_disp)/prev_trans.x_disp*100`,
assigned to `x_error`. -/
def x_error (prev_trans curr_trans : Transform) : FloatVal :=
  fmul (fdiv (fsub curr_trans.x_disp prev_trans.x_disp) prev_trans.x_disp) (ofNat 100)

/-- Line 158: `(curr_trans.x_disp-prev_trans.x_disp)/prev_trans.x_disp*100`,
assigned to `y_error`. -/
def y_error (prev_trans curr_trans : Transform) : FloatVal :=
  fmul (fdiv (fsub curr_trans.x_disp prev_trans.x_disp) prev_trans.x_disp) (ofNat 100)

/-- Line 159: `(curr_trans.x_disp-prev_trans.x_disp)/prev_trans.x_disp*100`,
assigned to `theta_error`. -/
def theta_error (prev_trans curr_trans : Transform) : FloatVal :=
  fmul (fdiv (fsub curr_trans.x_disp prev_trans.x_disp) prev_trans.x_disp) (ofNat 100)

/-- The condition of line 161:
`abs(x_error)<=error_per&&abs(y_error)<=error_per&&abs(theta_error)<=error_per`. -/
def icpCheck (prev_trans curr_trans : Transform) : Bool :=
  fle (fabs (x_error prev_trans curr_trans)) error_per
    && fle (fabs (y_error prev_trans curr_trans)) error_per
    && fle (fabs (theta_error prev_trans curr_trans)) error_per

/-- The processor state together with the locals of `handleLaserScan` that
live across iterations of the `while` loop. -/
structure IcpState (Corr : Type) where
  proc : ScanProcessor Corr
  count : Nat
  x_error : FloatVal
  y_error : FloatVal
  theta_error : FloatVal
  icp_correct : Bool

/-- One pass through the body of the `while` loop (lines 121-161). -/
def icpBody {Corr : Type} (h : Helpers Corr) (msg : LaserScan) (st : IcpState Corr) :
    IcpState Corr :=
  let p := st.proc
  let transformed_points := h.transformPoints p.new_points p.curr_trans p.transformed_points
  let corresponds_naive := h.getNaiveCorrespondence p.prev_points transformed_points
    p.new_points p.jump_table p.corresponds_naive (threshold st.count)
  let jump := h.getSmartJumpCorrespondence p.prev_points transformed_points p.new_points
    p.jump_table p.corresponds_smart (threshold st.count) msg.angle_increment p.jump_index
  let smart := h.getSmartCorrespondence p.prev_points transformed_points p.new_points
    p.jump_table jump.1 (threshold st.count) msg.angle_increment p.smart_index
  let prev_trans := p.curr_trans
  let count := st.count + 1
  let curr_trans := h.updateTransform smart.1 p.curr_trans
  { proc := { p with
      transformed_points := transformed_points
      corresponds_naive := corresponds_naive
      corresponds_smart := smart.1
      jump_index := jump.2
      smart_index := smart.2
      prev_trans := prev_trans
      curr_trans := curr_trans }
    count := count
    x_error := ScanMatch.x_error prev_trans curr_trans
    y_error := ScanMatch.y_error prev_trans curr_trans
    theta_error := ScanMatch.theta_error prev_trans curr_trans
    icp_correct := if icpCheck prev_trans curr_trans then true else st.icp_correct }

/-- The condition of the `while` loop:
`count < MAX_ITER && ( icp_correct==false || count==0)`. -/
def icpCond {Corr : Type} (st : IcpState Corr) : Bool :=
  flt (ofNat st.count) MAX_ITER && (st.icp_correct == false || st.count == 0)

set_option linter.unusedVariables false in
/-- The `while` loop of `handleLaserScan` (lines 119-164). -/
def icpLoop {Corr : Type} (h : Helpers Corr) (msg : LaserScan) (st : IcpState Corr) :
    IcpState Corr :=
  if hc : icpCond st = true then icpLoop h msg (icpBody h msg st) else st
termination_by 30 - st.count
decreasing_by
  have hlt : st.count < 30 := by
    have h1 : flt (ofNat st.count) MAX_ITER = true := by
      simp only [icpCond, Bool.and_eq_true] at hc
      exact hc.1
    have h2 : ((st.count : ℚ) < 30) := by
      simpa [flt, ofNat, MAX_ITER] using h1
    exact_mod_cast h2
  show 30 - (st.count + 1) < 30 - st.count
  omega

/-- The state in which the `while` loop is entered (lines 105-117):
the jump table is rebuilt, `curr_trans = Transform()`, `count = 0`, the
errors are zero and `icp_correct` is false. -/
def icpStart {Corr : Type} (h : Helpers Corr) (s : ScanProcessor Corr) : IcpState Corr where
  proc := { s with
    jump_table := h.computeJump s.jump_table s.prev_points
    curr_trans := Transform.identity }
  count := 0
  x_error := fin 0
  y_error := fin 0
  theta_error := fin 0
  icp_correct := false

/-- The method `ScanProcessor::handleLaserScan` (lines 86-178): build the scan; if
there is no reference scan, store the scan as reference and return; otherwise
run the ICP loop, multiply the matrix of the resulting transform into the
global pose and store the scan as reference. -/
def handleLaserScan {Corr : Type} (h : Helpers Corr) (s : ScanProcessor Corr)
    (msg : LaserScan) : ScanProcessor Corr :=
  let s1 := readScan s msg
  if s1.prev_points.isEmpty then
    { s1 with prev_points := s1.new_points }
  else
    let p := (icpLoop h msg (icpStart h s1)).proc
    let p1 : ScanProcessor Corr := { p with global_tf := p.global_tf * h.getMatrix p.curr_trans }
    { p1 with prev_points := p1.new_points }

/-- The processor after a sequence of scan messages, handled in order. -/
def runScans {Corr : Type} (h : Helpers Corr) (s : ScanProcessor Corr)
    (msgs : List LaserScan) : ScanProcessor Corr :=
  msgs.foldl (handleLaserScan h) s

/-- The final relative transforms of the matching cycles run while handling
`msgs` from state `s`, in order: one for every message that finds a non-empty
reference scan. -/
def cycleTransforms {Corr : Type} (h : Helpers Corr) :
    ScanProcessor Corr → List LaserScan → List Transform
  | _, [] => []
  | s, msg :: rest =>
    if s.prev_points.isEmpty then cycleTransforms h (handleLaserScan h s msg) rest
    else (handleLaserScan h s msg).curr_trans :: cycleTransforms h (handleLaserScan h s msg) rest

/-- The state after `k` passes through the loop body, started from the state
in which the loop is entered. -/
def icpIter {Corr : Type} (h : Helpers Corr) (msg : LaserScan) (s : ScanProcessor Corr)
    (k : Nat) : IcpState Corr :=
  (icpBody h msg)^[k] (icpStart h (readScan s msg))

/-! ## Concrete inputs -/

/-- A scan message with range bounds `[0, 5]` and the single reading `20`. -/
def farReadingScan : LaserScan :=
  { range_min := fin 0, range_max := fin 5, angle_min := fin 0, angle_increment := fin 1,
    ranges := [fin 20] }

/-- A scan message with range bounds `[1, 5]` whose readings are NaN, `7`
(above `range_max`, not above the range limit) and `1/2` (below `range_min`). -/
def droppedReadingsScan : LaserScan :=
  { range_min := fin 1, range_max := fin 5, angle_min := fin 0, angle_increment := fin 1,
    ranges := [nan, fin 7, fin (1 / 2)] }

/-- The relative change of one component, in percent, as the specification
words it: `|curr - prev| / |prev|`. -/
def relChange (prev curr : FloatVal) : FloatVal :=
  fmul (fdiv (fabs (fsub curr prev)) (fabs prev)) (ofNat 100)

/-- The convergence test as the specification words it: the relative change
of each of rotation, x and y is within `error_per` percent. -/
def componentCheck (prev_trans curr_trans : Transform) : Bool :=
  fle (relChange prev_trans.theta_rot curr_trans.theta_rot) error_per
    && fle (relChange prev_trans.x_disp curr_trans.x_disp) error_per
    && fle (relChange prev_trans.y_disp curr_trans.y_disp) error_per

/-- Helpers whose transform update moves the identity to `(1, 1, 1)` and
afterwards keeps `x_disp = 1` while adding `1` to `y_disp` and `2` to
`theta_rot`. -/
def driftHelpers : Helpers Unit where
  computeJump := fun jt _ => jt
  transformPoints := fun pts _ _ => pts
  getNaiveCorrespondence := fun _ _ _ _ c _ => c
  getSmartJumpCorrespondence := fun _ _ _ _ c _ _ n => (c, n)
  getSmartCorrespondence := fun _ _ _ _ c _ _ n => (c, n)
  updateTransform := fun _ t =>
    if t = Transform.identity then ⟨fin 1, fin 1, fin 1⟩
    else ⟨fin 1, fadd t.y_disp (fin 1), fadd t.theta_rot (fin 2)⟩
  getMatrix := fun _ => 1

/-- A scan message with range bounds `[0, 5]` and the single reading `1`. -/
def oneReadingScan : LaserScan :=
  { range_min := fin 0, range_max := fin 5, angle_min := fin 0, angle_increment := fin 1,
    ranges := [fin 1] }

/-- A processor that already holds a reference scan of one point. -/
def seededProcessor : ScanProcessor Unit :=
  { ScanProcessor.init Unit with prev_points := [Point.mk (fin 1) (fin 0)] }

/-- Helpers whose transform update returns the transform it is given. -/
def stillHelpers : Helpers Unit where
  computeJump := fun jt _ => jt
  transformPoints := fun pts _ _ => pts
  getNaiveCorrespondence := fun _ _ _ _ c _ => c
  getSmartJumpCorrespondence := fun _ _ _ _ c _ _ n => (c, n)
  getSmartCorrespondence := fun _ _ _ _ c _ _ n => (c, n)
  updateTransform := fun _ t => t
  getMatrix := fun _ => 1

/-- A scan message with range bounds `[0, 5]`, `angle_min = 1/2`,
`angle_increment = 1/4` and the readings NaN, `2` and `20`. -/
def sweepScan : LaserScan :=
  { range_min := fin 0, range_max := fin 5, angle_min := fin (1 / 2),
    angle_increment := fin (1 / 4), ranges := [nan, fin 2, fin 20] }

/-! ## Facts about `readScan` -/

theorem flt_imp_fle_false (a b : FloatVal) (hab : flt a b = true) : fle b a = false := by
  cases a <;> cases b <;> simp_all [flt, fle]

theorem readScanBody_append (msg : LaserScan) (i : Nat) (r : FloatVal) (acc : List Point) :
    readScanBody msg i r acc = acc ++ readScanBody msg i r [] := by
  unfold readScanBody
  split
  · simp
  · split <;> simp

theorem readScanLoop_flatten (msg : LaserScan) :
    ∀ (rs : List FloatVal) (i : Nat) (acc : List Point),
      readScanLoop msg i rs acc
        = acc ++ ((rs.enumFrom i).map (fun e => readScanBody msg e.1 e.2 [])).flatten := by
  intro rs
  induction rs with
  | nil => intro i acc; simp [readScanLoop]
  | cons r rest ih =>
    intro i acc
    rw [readScanLoop, ih, readScanBody_append]
    simp [List.append_assoc]

theorem readScanBody_cases (msg : LaserScan) (i : Nat) (r : FloatVal) :
    readScanBody msg i r [] = []
      ∨ (readScanBody msg i r [] = [Point.mk RANGE_LIMIT (scanAngle msg i)]
          ∧ fgt r RANGE_LIMIT = true)
      ∨ (readScanBody msg i r [] = [Point.mk r (scanAngle msg i)]
          ∧ fle msg.range_min r = true ∧ fle r msg.range_max = true) := by
  unfold readScanBody
  split
  · rename_i hc
    simp only [Bool.and_eq_true] at hc
    exact Or.inr (Or.inl ⟨by simp, hc.2⟩)
  · split
    · rename_i hc
      simp only [Bool.and_eq_true, fge] at hc
      exact Or.inr (Or.inr ⟨by simp, hc.1.2, hc.2⟩)
    · exact Or.inl rfl

/-! ## Claims about `readScan` -/

theorem flatten_sel (msg : LaserScan) :
    ∀ es : List (Nat × FloatVal), ∃ sel : List (Nat × FloatVal), sel.Sublist es ∧
      List.Forall₂ (fun p e => p.theta = scanAngle msg e.1 ∧ (p.r = e.2 ∨ p.r = RANGE_LIMIT))
        ((es.map (fun e => readScanBody msg e.1 e.2 [])).flatten) sel := by
  intro es
  induction es with
  | nil => exact ⟨[], List.Sublist.slnil, by simp⟩
  | cons e rest ih =>
    obtain ⟨sel, hsub, hrel⟩ := ih
    rcases readScanBody_cases msg e.1 e.2 with h0 | ⟨h1, _⟩ | ⟨h2, _⟩
    · exact ⟨sel, hsub.cons e, by simpa [h0] using hrel⟩
    · refine ⟨e :: sel, hsub.cons₂ e, ?_⟩
      simp only [List.map_cons, List.flatten_cons, h1, List.singleton_append]
      exact List.Forall₂.cons ⟨rfl, Or.inr rfl⟩ hrel
    · refine ⟨e :: sel, hsub.cons₂ e, ?_⟩
      simp only [List.map_cons, List.flatten_cons, h2, List.singleton_append]
      exact List.Forall₂.cons ⟨rfl, Or.inl rfl⟩ hrel

theorem readScan_new_points {Corr : Type} (s : ScanProcessor Corr) (msg : LaserScan) :
    (readScan s msg).new_points
      = (msg.ranges.enum.map (fun e => readScanBody msg e.1 e.2 [])).flatten := by
  simp [readScan, readScanLoop_flatten, List.enum]

/-- C3: a NaN reading contributes no point; a reading above `RANGE_LIMIT`
contributes a point of range exactly `RANGE_LIMIT`; any other reading
contributes a point of its own range if and only if it lies in
`[range_min, range_max]`; the built scan is the concatenation, in sweep
order, of these contributions, so every point of it has a range within
`[range_min, range_max]` or equal to `RANGE_LIMIT`. -/
theorem C3_readScan_reading {Corr : Type} (s : ScanProcessor Corr) (msg : LaserScan)
    (i : Nat) (r : FloatVal) (pts : List Point) :
    (isnan r = true → readScanBody msg i r pts = pts) ∧
    (fgt r RANGE_LIMIT = true →
      readScanBody msg i r pts = pts ++ [Point.mk RANGE_LIMIT (scanAngle msg i)]) ∧
    (isnan r = false → fgt r RANGE_LIMIT = false →
      ((fle msg.range_min r = true ∧ fle r msg.range_max = true) →
        readScanBody msg i r pts = pts ++ [Point.mk r (scanAngle msg i)]) ∧
      (¬ (fle msg.range_min r = true ∧ fle r msg.range_max = true) →
        readScanBody msg i r pts = pts)) ∧
    (readScan s msg).new_points
      = (msg.ranges.enum.map (fun e => readScanBody msg e.1 e.2 [])).flatten ∧
    (∀ p ∈ (readScan s msg).new_points,
      (fle msg.range_min p.r = true ∧ fle p.r msg.range_max = true) ∨ p.r = RANGE_LIMIT) := by
  refine ⟨?_, ?_, ?_, readScan_new_points s msg, ?_⟩
  · intro hn
    simp [readScanBody, hn]
  · intro hg
    have hn : isnan r = false := by
      cases r <;> simp_all [fgt, flt, isnan, RANGE_LIMIT]
    simp [readScanBody, hn, hg]
  · intro hn hg
    constructor
    · intro hin
      simp [readScanBody, hn, hg, fge, hin.1, hin.2]
    · intro hout
      have : (fle msg.range_min r && fle r msg.range_max) = false := by
        cases h1 : fle msg.range_min r <;> cases h2 : fle r msg.range_max <;> simp_all
      simp [readScanBody, hn, hg, fge, this]
  · intro p hp
    rw [readScan_new_points] at hp
    simp only [List.mem_flatten, List.mem_map] at hp
    obtain ⟨l, ⟨e, _, rfl⟩, hpl⟩ := hp
    rcases readScanBody_cases msg e.1 e.2 with h0 | ⟨h1, _⟩ | ⟨h2, hlo, hhi⟩
    · simp [h0] at hpl
    · rw [h1] at hpl
      simp only [List.mem_singleton] at hpl
      exact Or.inr (by rw [hpl])
    · rw [h2] at hpl
      simp only [List.mem_singleton] at hpl
      exact Or.inl (by rw [hpl]; exact ⟨hlo, hhi⟩)

/-- C4: the scan built by `readScan` is no longer than the list of readings;
its points come, in order, from a subsequence of the indexed readings, with
strictly increasing sweep indices; the point that comes from the reading of
sweep index `i` carries the angle `angle_min + angle_increment * i`, computed
from that original index (for finite `angle_min = a` and
`angle_increment = d` the value `a + d * i`); and the result does not depend
on what `new_points` held before. -/
theorem C4_readScan_order {Corr : Type} (s : ScanProcessor Corr) (msg : LaserScan) :
    (readScan s msg).new_points.length ≤ msg.ranges.length ∧
    (∃ sel : List (Nat × FloatVal),
      sel.Sublist msg.ranges.enum ∧
      (sel.map Prod.fst).Pairwise (· < ·) ∧
      (∀ e ∈ sel, msg.ranges[e.1]? = some e.2) ∧
      List.Forall₂
        (fun p e =>
          p.theta = fadd msg.angle_min (fmul msg.angle_increment (fin ((e.1 : Nat) : ℚ)))
          ∧ (∀ a d : ℚ, msg.angle_min = fin a → msg.angle_increment = fin d →
              p.theta = fin (a + d * ((e.1 : Nat) : ℚ)))
          ∧ (p.r = e.2 ∨ p.r = RANGE_LIMIT))
        (readScan s msg).new_points sel) ∧
    (∀ pts : List Point,
      (readScan { s with new_points := pts } msg).new_points = (readScan s msg).new_points) := by
  obtain ⟨sel, hsub, hrel⟩ := flatten_sel msg msg.ranges.enum
  rw [← readScan_new_points s msg] at hrel
  refine ⟨?_, ⟨sel, hsub, ?_, ?_, ?_⟩, ?_⟩
  · have h1 := hrel.length_eq
    have h2 := hsub.length_le
    simp only [List.enum_length] at h2
    omega
  · have h1 : (sel.map Prod.fst).Sublist (msg.ranges.enum.map Prod.fst) := hsub.map Prod.fst
    rw [List.enum_map_fst] at h1
    exact List.Pairwise.sublist h1 (List.pairwise_lt_range _)
  · intro e he
    have hmem : (e.1, e.2) ∈ msg.ranges.enum := hsub.subset he
    exact List.mk_mem_enum_iff_getElem?.mp hmem
  · refine List.Forall₂.imp ?_ hrel
    rintro p e ⟨hth, hr⟩
    refine ⟨hth, ?_, hr⟩
    intro a d ha hd
    rw [hth, scanAngle, ha, hd]
    simp [fadd, fmul, ofNat]
  · intro pts
    rfl

/-- C4 at a concrete message with `angle_min = 1/2`, `angle_increment = 1/4`
and readings NaN, `2`, `20`: the scan has two points, from the sweep indices 1
and 2, with the angles `1/2 + 1/4 * 1 = 3/4` and `1/2 + 1/4 * 2 = 1` of those
indices, not of the positions 0 and 1 they take in the scan. -/
theorem C4_readScan_order_witness :
    (readScan (ScanProcessor.init Unit) sweepScan).new_points
      = [Point.mk (fin 2) (fin (3 / 4)), Point.mk RANGE_LIMIT (fin 1)]
    ∧ (readScan (ScanProcessor.init Unit) sweepScan).new_points.length
        ≤ sweepScan.ranges.length
    ∧ ∃ sel : List (Nat × FloatVal),
        sel.Sublist sweepScan.ranges.enum ∧
        List.Forall₂ (fun p e => p.theta = fin (1 / 2 + 1 / 4 * ((e.1 : Nat) : ℚ)))
          (readScan (ScanProcessor.init Unit) sweepScan).new_points sel := by
  refine ⟨?_, (C4_readScan_order (ScanProcessor.init Unit) sweepScan).1, ?_⟩
  · simp [readScan, readScanLoop, readScanBody, sweepScan, isnan, fgt, fge, flt, fle,
      RANGE_LIMIT, scanAngle, fadd, fmul, ofNat]
    norm_num
  · obtain ⟨sel, hsub, _, _, hrel⟩ :=
      (C4_readScan_order (ScanProcessor.init Unit) sweepScan).2.1
    exact ⟨sel, hsub, List.Forall₂.imp (fun p e hpe => hpe.2.1 (1 / 2) (1 / 4) rfl rfl) hrel⟩

/-- C5, as stated, fails: the reading `20` lies above `range_max = 5`, hence
outside `[range_min, range_max]`, and the built scan is not empty: it holds
one point, of range `RANGE_LIMIT`. -/
theorem C5_counterexample :
    (∀ r ∈ farReadingScan.ranges, isnan r = true ∨ flt r farReadingScan.range_min = true
        ∨ fgt r farReadingScan.range_max = true) ∧
    (readScan (ScanProcessor.init Unit) farReadingScan).new_points
      = [Point.mk RANGE_LIMIT (fin 0)] ∧
    (readScan (ScanProcessor.init Unit) farReadingScan).new_points ≠ [] := by
  have h : (readScan (ScanProcessor.init Unit) farReadingScan).new_points
      = [Point.mk RANGE_LIMIT (fin 0)] := by
    simp [readScan, readScanLoop, readScanBody, farReadingScan, isnan, fgt, flt, RANGE_LIMIT,
      scanAngle, fadd, fmul, ofNat]
    norm_num
  refine ⟨?_, h, by rw [h]; simp⟩
  intro r hr
  simp only [farReadingScan, List.mem_singleton] at hr
  subst hr
  right; right
  simp [farReadingScan, fgt, flt]
  norm_num

/-- C5, amended: when every reading is NaN, or is not above `RANGE_LIMIT` and
lies below `range_min` or above `range_max`, the scan built by `readScan` is
empty. -/
theorem C5_readScan_all_dropped {Corr : Type} (s : ScanProcessor Corr) (msg : LaserScan)
    (hall : ∀ r ∈ msg.ranges, isnan r = true ∨
      (fgt r RANGE_LIMIT = false ∧ (flt r msg.range_min = true ∨ fgt r msg.range_max = true))) :
    (readScan s msg).new_points = [] := by
  rw [readScan_new_points]
  simp only [List.flatten_eq_nil_iff, List.mem_map]
  rintro l ⟨e, he, rfl⟩
  have hr : e.2 ∈ msg.ranges := by
    have h1 : (e.1, e.2) ∈ msg.ranges.enum := he
    have h2 := List.mk_mem_enum_iff_getElem?.mp h1
    exact List.getElem?_mem h2
  rcases hall e.2 hr with hn | ⟨hg, hlo | hhi⟩
  · simp [readScanBody, hn]
  · have := flt_imp_fle_false _ _ hlo
    simp [readScanBody, hg, fge, this]
  · have := flt_imp_fle_false _ _ hhi
    simp [readScanBody, hg, fge, this]

/-- C5, amended, at a concrete message: a NaN, a reading above `range_max`
but not above `RANGE_LIMIT`, and a reading below `range_min`. -/
theorem C5_readScan_all_dropped_witness :
    (readScan (ScanProcessor.init Unit) droppedReadingsScan).new_points = [] :=
  C5_readScan_all_dropped (ScanProcessor.init Unit) droppedReadingsScan (by
    intro r hr
    simp only [droppedReadingsScan, List.mem_cons, List.mem_singleton, List.not_mem_nil,
      or_false] at hr
    rcases hr with rfl | rfl | rfl
    · left; rfl
    · right
      simp [droppedReadingsScan, fgt, flt, RANGE_LIMIT]
      norm_num
    · right
      simp [droppedReadingsScan, fgt, flt, RANGE_LIMIT]
      norm_num)

/-! ## Facts about the ICP loop -/

theorem icpLoop_eq {Corr : Type} (h : Helpers Corr) (msg : LaserScan) (st : IcpState Corr) :
    icpLoop h msg st = if icpCond st = true then icpLoop h msg (icpBody h msg st) else st := by
  rw [icpLoop]
  split <;> rfl

theorem icpCond_iff {Corr : Type} (st : IcpState Corr) :
    icpCond st = true ↔ st.count < 30 ∧ (st.icp_correct = false ∨ st.count = 0) := by
  simp only [icpCond, flt, ofNat, MAX_ITER, Bool.and_eq_true, decide_eq_true_eq,
    Bool.or_eq_true, beq_iff_eq]
  constructor
  · rintro ⟨h1, h2⟩
    exact ⟨by exact_mod_cast h1, h2⟩
  · rintro ⟨h1, h2⟩
    exact ⟨by exact_mod_cast h1, h2⟩

theorem icpBody_count {Corr : Type} (h : Helpers Corr) (msg : LaserScan) (st : IcpState Corr) :
    (icpBody h msg st).count = st.count + 1 := rfl

theorem icpBody_flag {Corr : Type} (h : Helpers Corr) (msg : LaserScan) (st : IcpState Corr) :
    (icpBody h msg st).icp_correct
      = (icpCheck (icpBody h msg st).proc.prev_trans (icpBody h msg st).proc.curr_trans
          || st.icp_correct) := by
  simp only [icpBody]
  split <;> simp_all

theorem icpBody_frame {Corr : Type} (h : Helpers Corr) (msg : LaserScan) (st : IcpState Corr) :
    (icpBody h msg st).proc.global_tf = st.proc.global_tf
      ∧ (icpBody h msg st).proc.new_points = st.proc.new_points
      ∧ (icpBody h msg st).proc.prev_points = st.proc.prev_points :=
  ⟨rfl, rfl, rfl⟩

theorem icpBody_iterate_frame {Corr : Type} (h : Helpers Corr) (msg : LaserScan) :
    ∀ (k : Nat) (st : IcpState Corr),
      ((icpBody h msg)^[k] st).proc.global_tf = st.proc.global_tf
        ∧ ((icpBody h msg)^[k] st).proc.new_points = st.proc.new_points
        ∧ ((icpBody h msg)^[k] st).proc.prev_points = st.proc.prev_points
        ∧ ((icpBody h msg)^[k] st).count = st.count + k := by
  intro k
  induction k with
  | zero => intro st; simp
  | succ k ih =>
    intro st
    rw [Function.iterate_succ_apply]
    obtain ⟨h1, h2, h3, h4⟩ := ih (icpBody h msg st)
    obtain ⟨g1, g2, g3⟩ := icpBody_frame h msg st
    refine ⟨h1.trans g1, h2.trans g2, h3.trans g3, ?_⟩
    rw [h4, icpBody_count]
    omega

/-- From a state that has made at least one pass, the loop makes `m` further
passes, where `m` is the first number of passes after which `icp_correct` is
set, or the number of passes left to reach a count of 30. -/
theorem icpLoop_from {Corr : Type} (h : Helpers Corr) (msg : LaserScan) :
    ∀ (d : Nat) (st : IcpState Corr), 1 ≤ st.count → st.count + d = 30 →
      ∃ m, m ≤ d ∧ icpLoop h msg st = (icpBody h msg)^[m] st
        ∧ (∀ j, j < m → ((icpBody h msg)^[j] st).icp_correct = false)
        ∧ (((icpBody h msg)^[m] st).icp_correct = true ∨ m = d) := by
  intro d
  induction d with
  | zero =>
    intro st _ h30
    refine ⟨0, le_refl _, ?_, by intro j hj; omega, Or.inr rfl⟩
    rw [icpLoop_eq]
    have : ¬ icpCond st = true := by
      rw [icpCond_iff]; omega
    simp [this]
  | succ d ih =>
    intro st h1 h30
    cases hflag : st.icp_correct with
    | true =>
      refine ⟨0, Nat.zero_le _, ?_, by intro j hj; omega, Or.inl (by simpa using hflag)⟩
      rw [icpLoop_eq]
      have : ¬ icpCond st = true := by
        rw [icpCond_iff, hflag]
        rintro ⟨_, h2 | h2⟩
        · exact absurd h2 (by simp)
        · omega
      simp [this]
    | false =>
      have hcond : icpCond st = true := by
        rw [icpCond_iff]
        exact ⟨by omega, Or.inl hflag⟩
      obtain ⟨m, hm, hloop, hbefore, hend⟩ :=
        ih (icpBody h msg st) (by rw [icpBody_count]; omega) (by rw [icpBody_count]; omega)
      refine ⟨m + 1, by omega, ?_, ?_, ?_⟩
      · rw [icpLoop_eq, if_pos hcond, hloop, Function.iterate_succ_apply]
      · intro j hj
        cases j with
        | zero => simpa using hflag
        | succ j =>
          rw [Function.iterate_succ_apply]
          exact hbefore j (by omega)
      · rw [Function.iterate_succ_apply]
        rcases hend with hend | hend
        · exact Or.inl hend
        · exact Or.inr (by omega)

theorem readScan_frame {Corr : Type} (s : ScanProcessor Corr) (msg : LaserScan) :
    readScan s msg = { s with new_points := (readScan s msg).new_points } := rfl

theorem icpIter_frame {Corr : Type} (h : Helpers Corr) (msg : LaserScan)
    (s : ScanProcessor Corr) (k : Nat) :
    (icpIter h msg s k).proc.global_tf = s.global_tf
      ∧ (icpIter h msg s k).proc.new_points = (readScan s msg).new_points
      ∧ (icpIter h msg s k).proc.prev_points = s.prev_points
      ∧ (icpIter h msg s k).count = k := by
  obtain ⟨h1, h2, h3, h4⟩ := icpBody_iterate_frame h msg k (icpStart h (readScan s msg))
  refine ⟨h1, h2, h3, ?_⟩
  rw [icpIter, h4]
  simp [icpStart]

theorem icpIter_succ {Corr : Type} (h : Helpers Corr) (msg : LaserScan)
    (s : ScanProcessor Corr) (k : Nat) :
    icpIter h msg s (k + 1) = icpBody h msg (icpIter h msg s k) := by
  simp only [icpIter, Function.iterate_succ_apply']

/-- The loop of a matching cycle stops after `n` passes, `1 ≤ n ≤ 30`, where
`n` is the first pass whose check holds, or 30. -/
theorem icpLoop_passes {Corr : Type} (h : Helpers Corr) (msg : LaserScan)
    (s : ScanProcessor Corr) :
    ∃ n, 1 ≤ n ∧ n ≤ 30
      ∧ icpLoop h msg (icpStart h (readScan s msg)) = icpIter h msg s n
      ∧ (∀ k, 1 ≤ k → k < n →
          icpCheck (icpIter h msg s k).proc.prev_trans (icpIter h msg s k).proc.curr_trans
            = false)
      ∧ (icpCheck (icpIter h msg s n).proc.prev_trans (icpIter h msg s n).proc.curr_trans
            = true ∨ n = 30) := by
  have hstart : icpCond (icpStart h (readScan s msg)) = true := by
    rw [icpCond_iff]
    simp [icpStart]
  have hfirst : icpIter h msg s 0 = icpStart h (readScan s msg) := rfl
  obtain ⟨m, hm, hloop, hbefore, hend⟩ :=
    icpLoop_from h msg 29 (icpBody h msg (icpStart h (readScan s msg)))
      (by rw [icpBody_count]; simp [icpStart]) (by rw [icpBody_count]; simp [icpStart])
  have hiter : ∀ j, (icpBody h msg)^[j] (icpBody h msg (icpStart h (readScan s msg)))
      = icpIter h msg s (j + 1) := by
    intro j
    rw [icpIter, Function.iterate_succ_apply]
  have hflag : ∀ k, k ≤ m → (icpIter h msg s k).icp_correct = false := by
    intro k hk
    cases k with
    | zero => rfl
    | succ k =>
      rw [← hiter]
      exact hbefore k (by omega)
  refine ⟨m + 1, by omega, by omega, ?_, ?_, ?_⟩
  · rw [icpLoop_eq, if_pos hstart, hloop, hiter]
  · intro k hk1 hk2
    obtain ⟨j, rfl⟩ : ∃ j, k = j + 1 := ⟨k - 1, by omega⟩
    have h1 := hflag (j + 1) (by omega)
    rw [icpIter_succ, icpBody_flag] at h1
    rw [icpIter_succ]
    simp only [Bool.or_eq_false_iff] at h1
    exact h1.1
  · rcases hend with hend | hend
    · left
      rw [hiter, icpIter_succ, icpBody_flag, hflag m (le_refl _)] at hend
      rw [icpIter_succ]
      simpa using hend
    · right
      omega

theorem handleLaserScan_first {Corr : Type} (h : Helpers Corr) (s : ScanProcessor Corr)
    (msg : LaserScan) (hempty : s.prev_points = []) :
    handleLaserScan h s msg
      = { s with new_points := (readScan s msg).new_points
                 prev_points := (readScan s msg).new_points } := by
  have : (readScan s msg).prev_points = [] := hempty
  simp [handleLaserScan, this]
  exact ⟨rfl, rfl, rfl, rfl, rfl, rfl, rfl, rfl, rfl⟩

theorem handleLaserScan_match {Corr : Type} (h : Helpers Corr) (s : ScanProcessor Corr)
    (msg : LaserScan) (hne : s.prev_points ≠ []) :
    handleLaserScan h s msg
      = { (icpLoop h msg (icpStart h (readScan s msg))).proc with
          global_tf := (icpLoop h msg (icpStart h (readScan s msg))).proc.global_tf
            * h.getMatrix (icpLoop h msg (icpStart h (readScan s msg))).proc.curr_trans
          prev_points := (icpLoop h msg (icpStart h (readScan s msg))).proc.new_points } := by
  have : (readScan s msg).prev_points ≠ [] := hne
  simp [handleLaserScan, this]

theorem handleLaserScan_match_fields {Corr : Type} (h : Helpers Corr) (s : ScanProcessor Corr)
    (msg : LaserScan) (hne : s.prev_points ≠ []) :
    (handleLaserScan h s msg).curr_trans
        = (icpLoop h msg (icpStart h (readScan s msg))).proc.curr_trans
      ∧ (handleLaserScan h s msg).global_tf
        = s.global_tf * h.getMatrix (handleLaserScan h s msg).curr_trans
      ∧ (handleLaserScan h s msg).prev_points = (readScan s msg).new_points
      ∧ (handleLaserScan h s msg).new_points = (readScan s msg).new_points := by
  obtain ⟨n, _, _, hloop, _, _⟩ := icpLoop_passes h msg s
  obtain ⟨f1, f2, _, _⟩ := icpIter_frame h msg s n
  rw [handleLaserScan_match h s msg hne, hloop]
  exact ⟨rfl, by rw [← f1], f2, f2⟩

theorem handleLaserScan_prev_points {Corr : Type} (h : Helpers Corr) (s : ScanProcessor Corr)
    (msg : LaserScan) :
    (handleLaserScan h s msg).prev_points = (readScan s msg).new_points := by
  by_cases hempty : s.prev_points = []
  · rw [handleLaserScan_first h s msg hempty]
  · exact (handleLaserScan_match_fields h s msg hempty).2.2.1

theorem runScans_global_tf {Corr : Type} (h : Helpers Corr) :
    ∀ (msgs : List LaserScan) (s : ScanProcessor Corr),
      (runScans h s msgs).global_tf
        = s.global_tf * ((cycleTransforms h s msgs).map h.getMatrix).prod := by
  intro msgs
  induction msgs with
  | nil => intro s; simp [runScans, cycleTransforms]
  | cons msg rest ih =>
    intro s
    have hstep : runScans h s (msg :: rest) = runScans h (handleLaserScan h s msg) rest := rfl
    rw [hstep, ih]
    by_cases hempty : s.prev_points = []
    · have hg : (handleLaserScan h s msg).global_tf = s.global_tf := by
        rw [handleLaserScan_first h s msg hempty]
      simp [cycleTransforms, hempty, hg]
    · have hg := (handleLaserScan_match_fields h s msg hempty).2.1
      have hi : s.prev_points.isEmpty = false := by
        cases hp : s.prev_points with
        | nil => exact absurd hp hempty
        | cons a l => rfl
      rw [hg]
      simp [cycleTransforms, hi, mul_assoc]

/-! ## Claims about the ICP loop -/

theorem threshold_eq (c : Nat) :
    threshold c = fin ((1 - 1 / 10) * (c : ℚ) ^ 2 / 30 ^ 2 + 1 / 10) := by
  simp only [threshold, A, MIN_INFO, MAX_ITER, ofNat, fsub, fneg, fadd, fdiv, fmul]
  norm_num
  ring

theorem x_error_zero_prev (prev curr : Transform) (hzero : prev.x_disp = fin 0) :
    x_error prev curr = nan ∨ x_error prev curr = pinf ∨ x_error prev curr = ninf := by
  unfold x_error
  rw [hzero]
  cases curr.x_disp with
  | nan => left; rfl
  | ninf => right; right; norm_num [fsub, fneg, fadd, fdiv, fmul, ofNat, infSign]
  | pinf => right; left; norm_num [fsub, fneg, fadd, fdiv, fmul, ofNat, infSign]
  | fin a =>
    by_cases ha : a = 0
    · left; simp [fsub, fneg, fadd, fdiv, fmul, ha]
    · by_cases hneg : a < 0
      · right; right; norm_num [fsub, fneg, fadd, fdiv, fmul, ofNat, infSign, ha, hneg]
      · right; left; norm_num [fsub, fneg, fadd, fdiv, fmul, ofNat, infSign, ha, hneg]

theorem icpCheck_zero_prev (prev curr : Transform) (hzero : prev.x_disp = fin 0) :
    icpCheck prev curr = false := by
  have hx := x_error_zero_prev prev curr hzero
  have hfail : fle (fabs (x_error prev curr)) error_per = false := by
    rcases hx with hx | hx | hx <;> rw [hx] <;> rfl
  simp [icpCheck, hfail]

/-- C1, on the code: with `driftHelpers` the second pass takes the transform
from `(x, y, θ) = (1, 1, 1)` to `(1, 2, 3)`; the check of line 161 holds and
the loop stops with `icp_correct` set after 2 passes, although the relative
change of `y` is 100% and that of `θ` is 200%, so the check on each of the
three components fails. -/
theorem C1_check_uses_x_only :
    icpLoop driftHelpers oneReadingScan
        (icpStart driftHelpers (readScan seededProcessor oneReadingScan))
      = icpIter driftHelpers oneReadingScan seededProcessor 2
    ∧ (icpIter driftHelpers oneReadingScan seededProcessor 2).proc.prev_trans
        = ⟨fin 1, fin 1, fin 1⟩
    ∧ (icpIter driftHelpers oneReadingScan seededProcessor 2).proc.curr_trans
        = ⟨fin 1, fin 2, fin 3⟩
    ∧ (icpIter driftHelpers oneReadingScan seededProcessor 2).icp_correct = true
    ∧ icpCheck ⟨fin 1, fin 1, fin 1⟩ ⟨fin 1, fin 2, fin 3⟩ = true
    ∧ componentCheck ⟨fin 1, fin 1, fin 1⟩ ⟨fin 1, fin 2, fin 3⟩ = false
    ∧ relChange (fin 1) (fin 2) = fin 100 := by
  have hchk : icpCheck ⟨fin 1, fin 1, fin 1⟩ ⟨fin 1, fin 2, fin 3⟩ = true := by
    simp [icpCheck, x_error, y_error, theta_error, fsub, fneg, fadd, fdiv, fmul, fabs, fle,
      ofNat, error_per]
  have hrel : relChange (fin 1) (fin 2) = fin 100 := by
    simp [relChange, fsub, fneg, fadd, fdiv, fmul, fabs, ofNat]
    norm_num
  have hcomp : componentCheck ⟨fin 1, fin 1, fin 1⟩ ⟨fin 1, fin 2, fin 3⟩ = false := by
    simp [componentCheck, hrel, fle, error_per]
    intro _ _
    norm_num
  have h1 : icpIter driftHelpers oneReadingScan seededProcessor 1
      = icpBody driftHelpers oneReadingScan
          (icpStart driftHelpers (readScan seededProcessor oneReadingScan)) := rfl
  have hp1 : (icpIter driftHelpers oneReadingScan seededProcessor 1).proc.curr_trans
      = ⟨fin 1, fin 1, fin 1⟩ := by
    rw [h1]
    simp [icpBody, icpStart, driftHelpers]
  have hf1 : (icpIter driftHelpers oneReadingScan seededProcessor 1).icp_correct = false := by
    rw [h1, icpBody_flag, icpCheck_zero_prev _ _ rfl]
    rfl
  have hprev2 : (icpIter driftHelpers oneReadingScan seededProcessor 2).proc.prev_trans
      = ⟨fin 1, fin 1, fin 1⟩ := by
    rw [icpIter_succ]
    exact hp1
  have hcurr2 : (icpIter driftHelpers oneReadingScan seededProcessor 2).proc.curr_trans
      = ⟨fin 1, fin 2, fin 3⟩ := by
    rw [icpIter_succ]
    simp only [icpBody, hp1]
    simp [driftHelpers, Transform.identity, fadd]
    norm_num
  have hf2 : (icpIter driftHelpers oneReadingScan seededProcessor 2).icp_correct = true := by
    have := icpBody_flag driftHelpers oneReadingScan
      (icpIter driftHelpers oneReadingScan seededProcessor 1)
    rw [← icpIter_succ, hprev2, hcurr2, hchk] at this
    simpa using this
  refine ⟨?_, hprev2, hcurr2, hf2, hchk, hcomp, hrel⟩
  have c0 : icpCond (icpStart driftHelpers (readScan seededProcessor oneReadingScan)) = true := by
    rw [icpCond_iff]; simp [icpStart]
  have c1 : icpCond (icpIter driftHelpers oneReadingScan seededProcessor 1) = true := by
    rw [icpCond_iff, hf1, (icpIter_frame _ _ _ 1).2.2.2]; simp
  have c2 : ¬ icpCond (icpIter driftHelpers oneReadingScan seededProcessor 2) = true := by
    rw [icpCond_iff, hf2, (icpIter_frame _ _ _ 2).2.2.2]; simp
  rw [icpLoop_eq, if_pos c0, ← h1, icpLoop_eq, if_pos c1, ← icpIter_succ, icpLoop_eq, if_neg c2]


/-- C2: for a scan that finds a non-empty reference scan, the loop stops
after `n` passes with `1 ≤ n ≤ 30`, whatever the helpers return: no pass
before the `n`-th satisfies the check of line 161, and either the `n`-th
does or `n = 30`; the transform left by the `n`-th pass is the one whose
matrix is multiplied into the global pose. -/
theorem C2_icp_loop_iterations {Corr : Type} (h : Helpers Corr) (s : ScanProcessor Corr)
    (msg : LaserScan) (hne : s.prev_points ≠ []) :
    ∃ n, 1 ≤ n ∧ n ≤ 30
      ∧ icpLoop h msg (icpStart h (readScan s msg)) = icpIter h msg s n
      ∧ (icpIter h msg s n).count = n
      ∧ (∀ k, 1 ≤ k → k < n →
          icpCheck (icpIter h msg s k).proc.prev_trans (icpIter h msg s k).proc.curr_trans
            = false)
      ∧ (icpCheck (icpIter h msg s n).proc.prev_trans (icpIter h msg s n).proc.curr_trans
            = true ∨ n = 30)
      ∧ (handleLaserScan h s msg).curr_trans = (icpIter h msg s n).proc.curr_trans
      ∧ (handleLaserScan h s msg).global_tf
          = s.global_tf * h.getMatrix (icpIter h msg s n).proc.curr_trans := by
  obtain ⟨n, h1, h30, hloop, hbefore, hend⟩ := icpLoop_passes h msg s
  obtain ⟨hc, hg, _, _⟩ := handleLaserScan_match_fields h s msg hne
  refine ⟨n, h1, h30, hloop, (icpIter_frame h msg s n).2.2.2, hbefore, hend, ?_, ?_⟩
  · rw [hc, hloop]
  · rw [hg, hc, hloop]

/-- C2 at a concrete input: a processor holding a one-point reference scan,
a one-reading message and `driftHelpers`. -/
theorem C2_icp_loop_iterations_witness :
    seededProcessor.prev_points ≠ [] ∧
    ∃ n, 1 ≤ n ∧ n ≤ 30
      ∧ icpLoop driftHelpers oneReadingScan
          (icpStart driftHelpers (readScan seededProcessor oneReadingScan))
        = icpIter driftHelpers oneReadingScan seededProcessor n
      ∧ (handleLaserScan driftHelpers seededProcessor oneReadingScan).global_tf
        = seededProcessor.global_tf * driftHelpers.getMatrix
            (icpIter driftHelpers oneReadingScan seededProcessor n).proc.curr_trans := by
  refine ⟨by simp [seededProcessor], ?_⟩
  obtain ⟨n, h1, h30, hloop, _, _, _, _, hg⟩ :=
    C2_icp_loop_iterations driftHelpers seededProcessor oneReadingScan
      (by simp [seededProcessor])
  exact ⟨n, h1, h30, hloop, hg⟩

/-- C6, as stated, fails: when the previous and the new transform are both
the identity, the zero component is not handled specially: `x_error` is
`0/0*100`, a NaN, and the check fails, so the pass does not count as
converged.  With helpers that leave the transform unchanged this is the
first pass of a matching cycle. -/
theorem C6_counterexample :
    x_error Transform.identity Transform.identity = nan
    ∧ icpCheck Transform.identity Transform.identity = false
    ∧ (icpIter stillHelpers oneReadingScan seededProcessor 1).proc.prev_trans
        = Transform.identity
    ∧ (icpIter stillHelpers oneReadingScan seededProcessor 1).proc.curr_trans
        = Transform.identity
    ∧ (icpIter stillHelpers oneReadingScan seededProcessor 1).icp_correct = false := by
  refine ⟨?_, icpCheck_zero_prev _ _ rfl, rfl, rfl, ?_⟩
  · simp [x_error, Transform.identity, fsub, fneg, fadd, fdiv, fmul]
  · have h1 : icpIter stillHelpers oneReadingScan seededProcessor 1
        = icpBody stillHelpers oneReadingScan
            (icpStart stillHelpers (readScan seededProcessor oneReadingScan)) := rfl
    rw [h1, icpBody_flag, icpCheck_zero_prev _ _ rfl]
    rfl

/-- C6, amended: the check divides by `prev_trans.x_disp` without a guard.
When that value is zero, `x_error` is NaN or infinite and the check fails,
whatever the new transform is; in particular the first pass of every
matching cycle, whose previous transform is the identity, never sets
`icp_correct`. -/
theorem C6_zero_denominator {Corr : Type} (h : Helpers Corr) (msg : LaserScan)
    (s : ScanProcessor Corr) (prev curr : Transform) (hzero : prev.x_disp = fin 0) :
    (x_error prev curr = nan ∨ x_error prev curr = pinf ∨ x_error prev curr = ninf)
    ∧ icpCheck prev curr = false
    ∧ (icpIter h msg s 1).proc.prev_trans = Transform.identity
    ∧ (icpIter h msg s 1).icp_correct = false := by
  refine ⟨x_error_zero_prev prev curr hzero, icpCheck_zero_prev prev curr hzero, rfl, ?_⟩
  have h1 : icpIter h msg s 1 = icpBody h msg (icpStart h (readScan s msg)) := rfl
  rw [h1, icpBody_flag, icpCheck_zero_prev _ _ rfl]
  rfl

/-- C6, amended, at a concrete input: previous transform the identity, new
transform with `x_disp = 3`. -/
theorem C6_zero_denominator_witness :
    Transform.identity.x_disp = fin 0
    ∧ icpCheck Transform.identity ⟨fin 3, fin 0, fin 0⟩ = false
    ∧ (icpIter driftHelpers oneReadingScan seededProcessor 1).icp_correct = false :=
  ⟨rfl,
    (C6_zero_denominator driftHelpers oneReadingScan seededProcessor Transform.identity
      ⟨fin 3, fin 0, fin 0⟩ rfl).2.1,
    (C6_zero_denominator driftHelpers oneReadingScan seededProcessor Transform.identity
      ⟨fin 3, fin 0, fin 0⟩ rfl).2.2.2⟩

/-- C8, as stated, fails: the threshold is not non-increasing in the
iteration count: it is `1/10` at count 0 and `101/1000` at count 1. -/
theorem C8_counterexample :
    threshold 0 = fin (1 / 10) ∧ threshold 1 = fin (101 / 1000)
    ∧ fle (threshold 1) (threshold 0) = false := by
  have h0 : threshold 0 = fin (1 / 10) := by
    rw [threshold_eq]; norm_num
  have h1 : threshold 1 = fin (101 / 1000) := by
    rw [threshold_eq]; norm_num
  refine ⟨h0, h1, ?_⟩
  rw [h0, h1]
  simp only [fle, decide_eq_false_iff_not]
  norm_num

/-- C8, amended: for every iteration count `c` the threshold
`A*c*c + MIN_INFO` equals `(1 - MIN_INFO) * c^2 / MAX_ITER^2 + MIN_INFO` with
`MAX_ITER = 30` and `MIN_INFO = 1/10`, and it is strictly increasing in `c`:
smallest, `MIN_INFO`, at count 0 and larger at every later count. -/
theorem C8_threshold (c : Nat) :
    threshold c = fin ((1 - 1 / 10) * (c : ℚ) ^ 2 / 30 ^ 2 + 1 / 10)
    ∧ ∀ c' : Nat, c < c' →
        flt (threshold c) (threshold c') = true ∧ fle (threshold c') (threshold c) = false := by
  refine ⟨threshold_eq c, ?_⟩
  intro c' hlt
  have hq : (1 - 1 / 10) * (c : ℚ) ^ 2 / 30 ^ 2 + 1 / 10
      < (1 - 1 / 10) * (c' : ℚ) ^ 2 / 30 ^ 2 + 1 / 10 := by
    have hc : (c : ℚ) < (c' : ℚ) := by exact_mod_cast hlt
    have h0 : (0 : ℚ) ≤ (c : ℚ) := by positivity
    have hsq : (c : ℚ) ^ 2 < (c' : ℚ) ^ 2 := by nlinarith
    linarith
  constructor
  · rw [threshold_eq, threshold_eq]
    simpa [flt] using hq
  · rw [threshold_eq, threshold_eq]
    simpa [fle] using hq

/-- C8, amended, at the counts 0 and 29: the threshold of the last possible
pass is above that of the first. -/
theorem C8_threshold_witness :
    flt (threshold 0) (threshold 29) = true ∧ fle (threshold 29) (threshold 0) = false :=
  (C8_threshold 0).2 29 (by decide)

/-- C9: `x_error`, `y_error` and `theta_error` are one and the same
expression in the x displacements, so they are equal, each pass stores that
common value in all three locals, and the check of line 161 gives the same
answer for any two pairs of transforms that agree in `x_disp`, whatever
their `y_disp` and `theta_rot`. -/
theorem C9_check_depends_on_x_only {Corr : Type} (h : Helpers Corr) (msg : LaserScan)
    (st : IcpState Corr) (prev curr prev' curr' : Transform)
    (hprev : prev.x_disp = prev'.x_disp) (hcurr : curr.x_disp = curr'.x_disp) :
    y_error prev curr = x_error prev curr
    ∧ theta_error prev curr = x_error prev curr
    ∧ x_error prev curr
        = fmul (fdiv (fsub curr.x_disp prev.x_disp) prev.x_disp) (ofNat 100)
    ∧ (icpBody h msg st).y_error = (icpBody h msg st).x_error
    ∧ (icpBody h msg st).theta_error = (icpBody h msg st).x_error
    ∧ x_error prev curr = x_error prev' curr'
    ∧ icpCheck prev curr = icpCheck prev' curr' := by
  refine ⟨rfl, rfl, rfl, rfl, rfl, ?_, ?_⟩
  · simp only [x_error, hprev, hcurr]
  · simp only [icpCheck, x_error, y_error, theta_error, hprev, hcurr]

/-- C9 at two pairs of transforms that share `x_disp` and differ in `y_disp`
and `theta_rot`. -/
theorem C9_check_depends_on_x_only_witness :
    icpCheck ⟨fin 1, fin 1, fin 1⟩ ⟨fin 1, fin 2, fin 3⟩
      = icpCheck ⟨fin 1, fin 5, fin 0⟩ ⟨fin 1, fin (-7), fin 2⟩ :=
  (C9_check_depends_on_x_only driftHelpers oneReadingScan
    (icpStart driftHelpers seededProcessor)
    ⟨fin 1, fin 1, fin 1⟩ ⟨fin 1, fin 2, fin 3⟩ ⟨fin 1, fin 5, fin 0⟩
    ⟨fin 1, fin (-7), fin 2⟩ rfl rfl).2.2.2.2.2.2


/-- C7: the global pose of a new processor is the identity matrix; a
matching cycle replaces it by the prior pose times the matrix of the cycle's
final relative transform, the latter on the right; so after any sequence of
scans it is the prior pose times the ordered product of the matrices of the
matching cycles' transforms, from the identity just that product; and a
scan whose final transform has the identity matrix leaves it unchanged. -/
theorem C7_global_pose {Corr : Type} (h : Helpers Corr) (s : ScanProcessor Corr)
    (msg : LaserScan) (msgs : List LaserScan) :
    (ScanProcessor.init Corr).global_tf = 1
    ∧ (s.prev_points ≠ [] →
        (handleLaserScan h s msg).global_tf
          = s.global_tf * h.getMatrix (handleLaserScan h s msg).curr_trans)
    ∧ (runScans h s msgs).global_tf
        = s.global_tf * ((cycleTransforms h s msgs).map h.getMatrix).prod
    ∧ (runScans h (ScanProcessor.init Corr) msgs).global_tf
        = ((cycleTransforms h (ScanProcessor.init Corr) msgs).map h.getMatrix).prod
    ∧ (s.prev_points ≠ [] → h.getMatrix (handleLaserScan h s msg).curr_trans = 1 →
        (handleLaserScan h s msg).global_tf = s.global_tf) := by
  refine ⟨rfl, fun hne => (handleLaserScan_match_fields h s msg hne).2.1,
    runScans_global_tf h msgs s, ?_, ?_⟩
  · rw [runScans_global_tf]
    simp [ScanProcessor.init]
  · intro hne hone
    rw [(handleLaserScan_match_fields h s msg hne).2.1, hone, mul_one]

/-- C10: when the reference scan is empty on entry, no matching is run: the
call returns the state left by `readScan` with the reference scan set to the
scan just built, so that, of the members held on entry, only the scan buffer
`new_points` and the reference scan differ, both holding the scan just
built, and the global pose is unchanged; in every case the reference scan
after the call is the scan built from the message; hence after a scan that
built no point the next scan is handled as a first scan, without pose
update. -/
theorem C10_first_scan {Corr : Type} (h : Helpers Corr) (s : ScanProcessor Corr)
    (msg next : LaserScan) :
    (s.prev_points = [] →
      handleLaserScan h s msg
          = { readScan s msg with prev_points := (readScan s msg).new_points }
      ∧ handleLaserScan h s msg
          = { s with new_points := (readScan s msg).new_points
                     prev_points := (readScan s msg).new_points }
      ∧ (handleLaserScan h s msg).global_tf = s.global_tf)
    ∧ (handleLaserScan h s msg).prev_points = (readScan s msg).new_points
    ∧ ((readScan s msg).new_points = [] →
      handleLaserScan h (handleLaserScan h s msg) next
          = { readScan (handleLaserScan h s msg) next with
              prev_points := (readScan (handleLaserScan h s msg) next).new_points }
      ∧ (handleLaserScan h (handleLaserScan h s msg) next).global_tf
          = (handleLaserScan h s msg).global_tf) := by
  refine ⟨?_, handleLaserScan_prev_points h s msg, ?_⟩
  · intro hempty
    rw [handleLaserScan_first h s msg hempty]
    exact ⟨rfl, rfl, rfl⟩
  · intro hnone
    have hempty : (handleLaserScan h s msg).prev_points = [] := by
      rw [handleLaserScan_prev_points, hnone]
    rw [handleLaserScan_first h (handleLaserScan h s msg) next hempty]
    exact ⟨rfl, rfl⟩

/-- C10 at a concrete run: a processor holding a reference scan receives a
message all of whose readings are dropped, then a message with one valid
reading; the second message is handled as a first scan: the pose is kept and
the reference scan becomes the one-point scan. -/
theorem C10_first_scan_witness :
    (readScan seededProcessor droppedReadingsScan).new_points = []
    ∧ (handleLaserScan driftHelpers
        (handleLaserScan driftHelpers seededProcessor droppedReadingsScan)
        oneReadingScan).global_tf
      = (handleLaserScan driftHelpers seededProcessor droppedReadingsScan).global_tf
    ∧ (handleLaserScan driftHelpers
        (handleLaserScan driftHelpers seededProcessor droppedReadingsScan)
        oneReadingScan).prev_points
      = [Point.mk (fin 1) (fin 0)] := by
  have hnone : (readScan seededProcessor droppedReadingsScan).new_points = [] := by
    simp [readScan, readScanLoop, readScanBody, droppedReadingsScan, isnan, fgt, fge, flt, fle,
      RANGE_LIMIT]
    norm_num
  have hclaim := C10_first_scan driftHelpers seededProcessor droppedReadingsScan oneReadingScan
  refine ⟨hnone, (hclaim.2.2 hnone).2, ?_⟩
  rw [(hclaim.2.2 hnone).1]
  simp [readScan, readScanLoop, readScanBody, oneReadingScan, isnan, fgt, fge, flt, fle,
    RANGE_LIMIT, scanAngle, fadd, fmul, ofNat]

end ScanMatch
